import Mathlib

/-!
Shallow embedding of the `stategate` transition engine (src/index.ts, src/errors.ts,
src/types.ts) and verification of its specification.

Modelling conventions:
* An entity is a JavaScript object, modelled as an association list from field names
  to field values; string values suffice for every property under verification.
* Edge hooks (`onBefore` / `onAfter`) receive the entity by reference: they are
  modelled as functions `Entity → Entity × Option JsError`, returning the entity as
  mutated so far together with the error they throw, if any (mutations made before
  the throw persist, as they do through a shared reference).
* Global `beforeTransition` / `afterTransition` hooks receive only the transition
  payload, so they are modelled as `TransitionPayload → Option JsError`.
* `onAbort` handlers, the `onInvalidTransition` handler and the `onError` handler
  are observers: the engine only calls them.  `onAbort` is modelled by the console
  output it produces (that is all the synthesized default handler does); for
  `onInvalidTransition` and `onError` the configuration records whether a handler
  is installed and every invocation is recorded, with its arguments, in the ghost
  event trace of the call.
* `timestamp: new Date()` fields are wall-clock values and are not modelled; every
  other field of each payload is.
* All results carry a ghost trace of events (hook invocations, the state-field
  write, console output) in execution order.  Within one `Promise.all` fan-out the
  hooks all start together; the trace lists them in registration order and the
  surfaced rejection is determinized to the first one in registration order.
-/

namespace StateGate

/-- An entity field map: a JavaScript object as an association list. -/
abbrev Entity := List (String × String)

/-- Property read `e[k]`: `none` plays the role of `undefined`. -/
def Entity.getField : Entity → String → Option String
  | [], _ => none
  | (k', v) :: rest, k => if k = k' then some v else Entity.getField rest k

/-- Property write `e[k] = v`: overwrites an existing property in place, appends a
new one. -/
def Entity.setField : Entity → String → String → Entity
  | [], k, v => [(k, v)]
  | (k', v') :: rest, k, v =>
      if k = k' then (k, v) :: rest else (k', v') :: Entity.setField rest k v

/-- The optional `context` argument of `transition`: `{ actor: string; meta?: any }`. -/
structure Ctx where
  actor : String
  meta : Option String
deriving Repr, DecidableEq

/-- JavaScript errors thrown through the engine: the two classes of errors.ts plus
arbitrary other errors, identified by their `message`. -/
inductive JsError where
  | abortTransition (message : String)
  | invalidTransition (message : String) (fromState : String) (toState : String)
      (meta : Option Ctx)
  | generic (message : String)
deriving Repr, DecidableEq

/-- The `message` property of the error object. -/
def JsError.message : JsError → String
  | .abortTransition m => m
  | .invalidTransition m _ _ _ => m
  | .generic m => m

/-- Test `e instanceof AbortTransition`. -/
def isAbortErr : JsError → Bool
  | .abortTransition _ => true
  | _ => false

/-- Test `e instanceof InvalidTransition`. -/
def isInvalidErr : JsError → Bool
  | .invalidTransition _ _ _ _ => true
  | _ => false

/-- The `AbortTransition` constructor of errors.ts:
`super(params.message || "Aborting transition")` (the empty string is falsy). -/
def mkAbortTransition (msg : Option String) : JsError :=
  .abortTransition (match msg with
    | some m => if m = "" then "Aborting transition" else m
    | none => "Aborting transition")

/-- The `InvalidTransition` constructor of errors.ts:
`super(params.message || "Invalid transition")`. -/
def mkInvalidTransition (msg : Option String) (fromState toState : String)
    (meta : Option Ctx) : JsError :=
  .invalidTransition
    (match msg with
      | some m => if m = "" then "Invalid transition" else m
      | none => "Invalid transition")
    fromState toState meta

/-- The payload handed to global before/after hooks
(`{ from, to, actor, meta, timestamp }`; the wall-clock timestamp is not modelled). -/
structure TransitionPayload where
  fromState : String
  toState : String
  actor : Option String
  meta : Option String
deriving Repr, DecidableEq

/-- The payload handed to `onInvalidTransition`, `onAbort` and `onError`
(`{ from, to, message, timestamp, meta }`; note the engine puts the whole `context`
object into `meta` here, not `context.meta`). -/
structure ErrorPayload where
  fromState : String
  toState : String
  message : String
  meta : Option Ctx
deriving Repr, DecidableEq

/-- Edge-level hook (`onBefore` / `onAfter`). -/
abbrev EventHandler := Entity → Entity × Option JsError

/-- Global before/after transition hook. -/
abbrev TransitionHandler := TransitionPayload → Option JsError

/-- An `onAbort` handler, modelled by the console output it emits. -/
abbrev AbortHandler := ErrorPayload → List String

/-- One declared edge of the transition table (types.ts `TransitionConfig`).  The
optional `isAbortable` flag is a JavaScript boolean whose `undefined` is falsy, so
it is modelled as a `Bool`; the inert `details` metadata, never read by the engine,
is not modelled. -/
structure TransitionConfig where
  isAbortable : Bool
  onBefore : Option EventHandler
  onAbort : Option AbortHandler
  onAfter : Option EventHandler

/-- An edge with all optional pieces absent (`{}` in the tests). -/
def emptyEdge : TransitionConfig :=
  { isAbortable := false, onBefore := none, onAbort := none, onAfter := none }

/-- The row of declared edges out of one state. -/
abbrev TransitionRow := List (String × TransitionConfig)

/-- The transition table: state name to row of edges. -/
abbrev Transitions := List (String × TransitionRow)

/-- Engine-wide hooks.  For `onInvalidTransition` and `onError` the model records
whether a handler is configured; every invocation, with its arguments, appears in
the call trace. -/
structure GlobalHooks where
  beforeTransition : Option (List TransitionHandler)
  afterTransition : Option (List TransitionHandler)
  onInvalidTransition : Bool
  onError : Bool

/-- The configuration object passed to the constructor. -/
structure MachineConfig where
  initialState : String
  stateKey : Option String
  transitions : Transitions
  globalHooks : Option GlobalHooks

/-- The engine after construction (`NormalizedMachineconfig`: `stateKey` resolved). -/
structure StateMachine where
  initialState : String
  stateKey : String
  transitions : Transitions
  globalHooks : Option GlobalHooks

/-- The default `onAbort` handler synthesized by the constructor for an edge
`tK → nS`: it logs one line naming the edge and does nothing else. -/
def defaultOnAbort (tK nS : String) : AbortHandler :=
  fun _ => [s!"Aborting transition from {tK} to {nS}"]

/-- One step of the constructor's normalization walk (index.ts lines 20-27): an
abortable edge without an `onAbort` receives the default handler; every other edge
is left untouched. -/
def normalizeEdge (tK nS : String) (t : TransitionConfig) : TransitionConfig :=
  if t.isAbortable && t.onAbort.isNone then
    { t with onAbort := some (defaultOnAbort tK nS) }
  else t

/-- The constructor's walk over every declared edge (index.ts lines 16-29). -/
def normalizeTransitions (ts : Transitions) : Transitions :=
  ts.map fun p => (p.1, p.2.map fun q => (q.1, normalizeEdge p.1 q.1 q.2))

/-- The `StateMachine` constructor (index.ts lines 15-34).  In JavaScript the
default handlers are assigned through the caller's own `transitions` record, and
`this.config = { ...config, stateKey: config.stateKey ?? "status" }` shallow-copies
that record by reference.  The model therefore returns both the machine and the
caller's configuration object as observable after construction: the two hold the
same (normalized) transitions value. -/
def mkStateMachine (config : MachineConfig) : StateMachine × MachineConfig :=
  let ts := normalizeTransitions config.transitions
  (⟨config.initialState, config.stateKey.getD "status", ts, config.globalHooks⟩,
   { config with transitions := ts })

/-- `this.config.globalHooks?.beforeTransition ?? []`. -/
def StateMachine.beforeHooks (m : StateMachine) : List TransitionHandler :=
  (m.globalHooks.bind GlobalHooks.beforeTransition).getD []

/-- `this.config.globalHooks?.afterTransition ?? []`. -/
def StateMachine.afterHooks (m : StateMachine) : List TransitionHandler :=
  (m.globalHooks.bind GlobalHooks.afterTransition).getD []

/-- Whether `globalHooks.onInvalidTransition` is configured. -/
def StateMachine.onInvalidConfigured (m : StateMachine) : Bool :=
  (m.globalHooks.map GlobalHooks.onInvalidTransition).getD false

/-- Whether `globalHooks.onError` is configured. -/
def StateMachine.onErrorConfigured (m : StateMachine) : Bool :=
  (m.globalHooks.map GlobalHooks.onError).getD false

/-- Ghost events recorded during one `transition` call, in execution order. -/
inductive Ev where
  | evOnBefore
  | globalBefore (i : Nat) (p : TransitionPayload)
  | commit (target : String)
  | evOnAfter
  | globalAfter (i : Nat) (p : TransitionPayload)
  | onInvalid (p : ErrorPayload)
  | onAbort (p : ErrorPayload)
  | log (s : String)
  | onError (e : JsError) (p : ErrorPayload)
deriving Repr, DecidableEq

/-- Events emitted by the validate/before/commit/after phases (as opposed to the
failure-handling catch block). -/
def Ev.isPhase : Ev → Bool
  | .evOnBefore => true
  | .globalBefore _ _ => true
  | .commit _ => true
  | .evOnAfter => true
  | .globalAfter _ _ => true
  | _ => false

/-- Whether an event is an `onError` invocation. -/
def Ev.isOnError : Ev → Bool
  | .onError _ _ => true
  | _ => false

/-- The constant message of the `console.log` on index.ts lines 123-126 (the error
object passed as second argument to `console.log` is not part of the message). -/
def skipAbortLogMsg : String :=
  "Abort Transition triggered but skipped over transition \x7bisAbortable:false\x7d "

/-- A JavaScript runtime error the engine never throws itself: reading a property
of `undefined`.  It occurs on index.ts line 77 when the entity's current state has
no row in the table, before the `try` block begins. -/
inductive RuntimeError where
  | typeError
deriving Repr, DecidableEq

/-- How the promise returned by `transition` settles. -/
inductive CallOutcome where
  | resolved
  | rejected (e : RuntimeError)
deriving Repr, DecidableEq

/-- The observable result of one `transition` call plus ghost instrumentation:
`entity` is the caller's object after the call (JavaScript passes the entity by
reference, so the commit write reaches the caller while the line-113 rebinding does
not, see `StateMachine.transition`); `trace` records the hook invocations, the
state-field write and the console output in order; `caught` is the error absorbed
by the catch block, if any; `outcome` tells how the returned promise settles. -/
structure TransitionResult where
  entity : Entity
  trace : List Ev
  caught : Option JsError
  outcome : CallOutcome
deriving Repr, DecidableEq

/-- Run an optional edge hook (`hook && (await hook(entity))`): record the
invocation, keep the mutations the hook performed, propagate the error it throws. -/
def runEdgeHook (hook : Option EventHandler) (ev : Ev) (entity : Entity) :
    Entity × List Ev × Option JsError :=
  match hook with
  | none => (entity, [], none)
  | some f => ((f entity).1, [ev], (f entity).2)

/-- Run `await Promise.all(hooks.map((fn) => fn(payload)))`: every handler starts
(so every invocation is recorded); if any rejects, the surfaced rejection is
determinized to the first in registration order. -/
def runGlobalHooks (mk : Nat → TransitionPayload → Ev) (hooks : List TransitionHandler)
    (p : TransitionPayload) : List Ev × Option JsError :=
  ((List.range hooks.length).map (fun i => mk i p),
   (hooks.filterMap (fun fn => fn p)).head?)

/-- The transition payload built on index.ts lines 57-63 and 157-163 (identical in
both places apart from the wall-clock timestamp). -/
def mkTransitionPayload (fromState toState : String) (context : Option Ctx) :
    TransitionPayload :=
  { fromState := fromState, toState := toState,
    actor := context.map Ctx.actor, meta := context.bind Ctx.meta }

/-- An error payload `{ from, to, message, timestamp, meta: context }` as built in
the catch block: `message` is `error.message` unless that is falsy, in which case
the branch-specific fallback string is used. -/
def mkErrorPayload (fromState toState : String) (context : Option Ctx)
    (fallback : String) (e : JsError) : ErrorPayload :=
  { fromState := fromState, toState := toState,
    message := if e.message = "" then fallback else e.message,
    meta := context }

/-- The pre-phase, index.ts lines 36-67: validate the requested target, run the
edge's `onBefore`, then fan out the global before-hooks.  For an association-list
table the test `nextState in allowedNextStates` succeeds exactly when the line-77
lookup that produced `nextTransition` did, so the `none` branch below is
unreachable from `transition` (in JavaScript line 54 would then read a property of
`undefined` inside the `try`). -/
def StateMachine.preTransition (m : StateMachine) (currentState : String)
    (allowedNextStates : TransitionRow) (nextState : String)
    (nextTransition : Option TransitionConfig) (entity : Entity)
    (context : Option Ctx) : Entity × List Ev × Option JsError :=
  if (List.lookup nextState allowedNextStates).isSome then
    match nextTransition with
    | none => (entity, [], some (JsError.generic "TypeError"))
    | some nt =>
        let rb := runEdgeHook nt.onBefore Ev.evOnBefore entity
        match rb.2.2 with
        | some err => (rb.1, rb.2.1, some err)
        | none =>
            let payload := mkTransitionPayload currentState nextState context
            let r := runGlobalHooks Ev.globalBefore m.beforeHooks payload
            (rb.1, rb.2.1 ++ r.1, r.2)
  else
    (entity, [],
     some (mkInvalidTransition (some "Invalid Transaction") currentState nextState context))

/-- The post-phase, index.ts lines 141-167: defensive consistency check, the edge's
`onAfter`, then the global after-hooks.  The `none` branch is unreachable from
`transition` (the pre-phase already failed validation in that case; in JavaScript
line 154 would throw a `TypeError` inside the `try`). -/
def StateMachine.postTransition (m : StateMachine) (currentState nextState : String)
    (nextTransition : Option TransitionConfig) (entity : Entity) (stateKey : String)
    (context : Option Ctx) : Entity × List Ev × Option JsError :=
  if entity.getField stateKey ≠ some nextState then
    (entity, [], some (JsError.generic "Transition failed or had incongurencies"))
  else
    match nextTransition with
    | none => (entity, [], some (JsError.generic "TypeError"))
    | some nt =>
        let ra := runEdgeHook nt.onAfter Ev.evOnAfter entity
        match ra.2.2 with
        | some err => (ra.1, ra.2.1, some err)
        | none =>
            let payload := mkTransitionPayload currentState nextState context
            let r := runGlobalHooks Ev.globalAfter m.afterHooks payload
            (ra.1, ra.2.1 ++ r.1, r.2)

/-- Lines 100-111 of the catch block: `if (e instanceof InvalidTransition)` then
invoke `globalHooks?.onInvalidTransition?.` with the invalid-transition payload. -/
def StateMachine.invalidEvents (m : StateMachine) (currentState nextState : String)
    (context : Option Ctx) (e : JsError) : List Ev :=
  if isInvalidErr e && m.onInvalidConfigured then
    [Ev.onInvalid (mkErrorPayload currentState nextState context "Invalid transition." e)]
  else []

/-- Lines 112-127 of the catch block: if `nextTransition?.isAbortable && e instanceof
AbortTransition` (falsy when the edge is `undefined`), restore-and-`onAbort`;
otherwise the `console.log` notice.  `entity = structuredClone(entitySnapshot)` on
line 113 rebinds the callee-local `entity` parameter to a fresh clone: the caller's
object is unaffected and the rebound local is never read again, so the restore has
no observable effect and no entity is produced here.  The `onAbort?.` call is
optional, and the notice fires for every error this branch does not handle. -/
def StateMachine.abortEvents (currentState nextState : String)
    (nextTransition : Option TransitionConfig) (context : Option Ctx)
    (e : JsError) : List Ev :=
  match nextTransition with
  | some nt =>
      if nt.isAbortable && isAbortErr e then
        let p := mkErrorPayload currentState nextState context "Aborting transition." e
        match nt.onAbort with
        | some h => Ev.onAbort p :: (h p).map Ev.log
        | none => []
      else [Ev.log skipAbortLogMsg]
  | none => [Ev.log skipAbortLogMsg]

/-- Lines 128-137 of the catch block: if `globalHooks?.onError` is configured,
invoke it with the error and the error payload. -/
def StateMachine.errorEvents (m : StateMachine) (currentState nextState : String)
    (context : Option Ctx) (e : JsError) : List Ev :=
  if m.onErrorConfigured then
    [Ev.onError e (mkErrorPayload currentState nextState context "Aborting transition." e)]
  else []

/-- The catch block of `transition`, index.ts lines 98-137: classify the caught
error and dispatch the handlers, in source order. -/
def StateMachine.catchBlock (m : StateMachine) (currentState nextState : String)
    (nextTransition : Option TransitionConfig) (context : Option Ctx)
    (e : JsError) : List Ev :=
  m.invalidEvents currentState nextState context e
    ++ StateMachine.abortEvents currentState nextState nextTransition context e
    ++ m.errorEvents currentState nextState context e

/-- The body of the `try`/`catch` of `transition` once the current state's row has
been found (index.ts lines 77-138). -/
def StateMachine.transitionCore (m : StateMachine) (currentState : String)
    (allowedNextStates : TransitionRow) (entity : Entity) (nextState : String)
    (context : Option Ctx) : TransitionResult :=
  let nextTransition := List.lookup nextState allowedNextStates
  -- line 79 takes a deep structural snapshot of the entity; it is read again only
  -- by the line-113 rebinding inside the catch block, which never reaches the
  -- caller, so the snapshot itself is not materialized here (see `catchBlock`).
  let pre := m.preTransition currentState allowedNextStates nextState nextTransition
    entity context
  match pre.2.2 with
  | some err =>
      { entity := pre.1,
        trace := pre.2.1 ++ m.catchBlock currentState nextState nextTransition context err,
        caught := some err, outcome := CallOutcome.resolved }
  | none =>
      let entity2 := pre.1.setField m.stateKey nextState
      let post := m.postTransition currentState nextState nextTransition entity2
        m.stateKey context
      match post.2.2 with
      | some err =>
          { entity := post.1,
            trace := pre.2.1 ++ [Ev.commit nextState] ++ post.2.1
              ++ m.catchBlock currentState nextState nextTransition context err,
            caught := some err, outcome := CallOutcome.resolved }
      | none =>
          { entity := post.1,
            trace := pre.2.1 ++ [Ev.commit nextState] ++ post.2.1,
            caught := none, outcome := CallOutcome.resolved }

/-- One `transition(entity, nextState, context?)` call, index.ts lines 69-139.  The
reads on lines 74-77 happen before the `try` block: when the entity's state field
is missing, or holds a state with no row in the table, line 77 reads a property of
`undefined` and the returned promise rejects with a `TypeError` (a table with a
literal `"undefined"` state name is not modelled).  The returned `entity` is the
caller's view after the call: the line-89 commit writes through the shared
reference, while the line-113 restore only rebinds the callee-local parameter and
therefore never reaches the caller. -/
def StateMachine.transition (m : StateMachine) (entity : Entity) (nextState : String)
    (context : Option Ctx) : TransitionResult :=
  match entity.getField m.stateKey with
  | none =>
      { entity := entity, trace := [], caught := none,
        outcome := CallOutcome.rejected RuntimeError.typeError }
  | some currentState =>
      match List.lookup currentState m.transitions with
      | none =>
          { entity := entity, trace := [], caught := none,
            outcome := CallOutcome.rejected RuntimeError.typeError }
      | some allowedNextStates =>
          m.transitionCore currentState allowedNextStates entity nextState context

/-! Concrete machines used as counterexample inputs and witness inputs. -/

/-- A machine with one `idle → running` edge, no hooks anywhere. -/
def plainMachine : StateMachine :=
  (mkStateMachine
    { initialState := "idle", stateKey := none,
      transitions := [("idle", [("running", emptyEdge)])],
      globalHooks := none }).1

/-- An edge whose hooks succeed and mutate the entity, used together with one
global before-hook and one global after-hook. -/
def c1Edge : TransitionConfig :=
  { isAbortable := false,
    onBefore := some (fun e => (e.setField "b" "1", none)),
    onAbort := none,
    onAfter := some (fun e => (e.setField "a" "2", none)) }

def c1Machine : StateMachine :=
  (mkStateMachine
    { initialState := "idle", stateKey := none,
      transitions := [("idle", [("running", c1Edge)])],
      globalHooks := some
        { beforeTransition := some [fun _ => none],
          afterTransition := some [fun _ => none],
          onInvalidTransition := false, onError := false } }).1

/-- An abortable edge whose `onAfter` — after the commit — raises the
`AbortTransition` signal. -/
def c2Edge : TransitionConfig :=
  { isAbortable := true, onBefore := none, onAbort := none,
    onAfter := some (fun e => (e, some (mkAbortTransition (some "late abort")))) }

def c2Machine : StateMachine :=
  (mkStateMachine
    { initialState := "idle", stateKey := none,
      transitions := [("idle", [("running", c2Edge)])],
      globalHooks := none }).1

/-- An abortable edge whose `onBefore` first mutates the entity's `flag` field and
then raises the `AbortTransition` signal. -/
def c3Edge : TransitionConfig :=
  { isAbortable := true,
    onBefore := some (fun e =>
      (e.setField "flag" "mutated", some (mkAbortTransition (some "stop")))),
    onAbort := none, onAfter := none }

def c3Machine : StateMachine :=
  (mkStateMachine
    { initialState := "idle", stateKey := none,
      transitions := [("idle", [("running", c3Edge)])],
      globalHooks := some
        { beforeTransition := none, afterTransition := none,
          onInvalidTransition := false, onError := true } }).1

def c3Entity : Entity := [("status", "idle"), ("flag", "orig")]

/-- A machine with `onInvalidTransition` and `onError` configured. -/
def c4Machine : StateMachine :=
  (mkStateMachine
    { initialState := "idle", stateKey := none,
      transitions := [("idle", [("running", emptyEdge)])],
      globalHooks := some
        { beforeTransition := none, afterTransition := none,
          onInvalidTransition := true, onError := true } }).1

/-- A non-abortable edge whose `onBefore` raises the `AbortTransition` signal, with
a user-supplied `onAbort` that would log if it ever ran. -/
def c6Edge : TransitionConfig :=
  { isAbortable := false,
    onBefore := some (fun e => (e, some (mkAbortTransition (some "veto")))),
    onAbort := some (fun _ => ["user abort handler ran"]),
    onAfter := none }

def c6Machine : StateMachine :=
  (mkStateMachine
    { initialState := "idle", stateKey := none,
      transitions := [("idle", [("running", c6Edge)])],
      globalHooks := some
        { beforeTransition := none, afterTransition := none,
          onInvalidTransition := false, onError := true } }).1

/-- A configuration with an abortable edge and no `onAbort`, observed before and
after construction. -/
def c8Config : MachineConfig :=
  { initialState := "idle", stateKey := none,
    transitions :=
      [("idle",
        [("running",
          { isAbortable := true, onBefore := none, onAbort := none,
            onAfter := none })])],
    globalHooks := none }

/-- A configuration with an abortable edge and no `onAbort`, whose caller-visible
value after construction differs from its value before. -/
def c10Config : MachineConfig :=
  { initialState := "idle", stateKey := none,
    transitions :=
      [("idle",
        [("running",
          { isAbortable := true, onBefore := none, onAbort := none,
            onAfter := none })])],
    globalHooks := none }

/-! Helper lemmas, shared by several of the claim theorems below. -/

theorem getField_setField_self (e : Entity) (k v : String) :
    (Entity.setField e k v).getField k = some v := by
  induction e with
  | nil => simp [Entity.setField, Entity.getField]
  | cons p rest ih =>
      obtain ⟨k', v'⟩ := p
      by_cases h : k = k'
      · simp [Entity.setField, Entity.getField, h]
      · simp [Entity.setField, Entity.getField, h, ih]

theorem lookup_map_keyed {β γ : Type} (f : String → β → γ) (l : List (String × β))
    (a : String) :
    List.lookup a (l.map fun p => (p.1, f p.1 p.2)) = (List.lookup a l).map (f a) := by
  induction l with
  | nil => rfl
  | cons p rest ih =>
      obtain ⟨k, v⟩ := p
      by_cases h : a = k
      · subst h
        simp [List.lookup]
      · have hb : (a == k) = false := by simp [h]
        simp [List.lookup, hb, ih]

theorem isPhase_not_onError {q : Ev} (h : q.isPhase = true) : q.isOnError = false := by
  cases q <;> simp_all [Ev.isPhase, Ev.isOnError]

theorem isPhase_not_onAbort {q : Ev} (h : q.isPhase = true) (p : ErrorPayload) :
    q ≠ Ev.onAbort p := by
  cases q <;> simp_all [Ev.isPhase]

theorem mem_runEdgeHook_trace {hook : Option EventHandler} {ev : Ev} {e : Entity}
    {q : Ev} (h : q ∈ (runEdgeHook hook ev e).2.1) : q = ev := by
  cases hook <;> simp_all [runEdgeHook]

theorem preTransition_trace_phase (m : StateMachine) (cs : String)
    (row : TransitionRow) (ns : String) (nt : Option TransitionConfig) (e : Entity)
    (ctx : Option Ctx) :
    ∀ q ∈ (m.preTransition cs row ns nt e ctx).2.1, q.isPhase = true := by
  intro q hq
  unfold StateMachine.preTransition at hq
  split at hq
  · cases nt with
    | none => simp at hq
    | some t =>
        simp only at hq
        split at hq
        · have h := mem_runEdgeHook_trace hq
          subst h; rfl
        · rw [List.mem_append] at hq
          rcases hq with hq | hq
          · have h := mem_runEdgeHook_trace hq
            subst h; rfl
          · simp only [runGlobalHooks, List.mem_map, List.mem_range] at hq
            obtain ⟨i, -, rfl⟩ := hq
            rfl
  · simp at hq

theorem postTransition_trace_phase (m : StateMachine) (cs ns : String)
    (nt : Option TransitionConfig) (e : Entity) (k : String) (ctx : Option Ctx) :
    ∀ q ∈ (m.postTransition cs ns nt e k ctx).2.1, q.isPhase = true := by
  intro q hq
  unfold StateMachine.postTransition at hq
  split at hq
  · simp at hq
  · cases nt with
    | none => simp at hq
    | some t =>
        simp only at hq
        split at hq
        · have h := mem_runEdgeHook_trace hq
          subst h; rfl
        · rw [List.mem_append] at hq
          rcases hq with hq | hq
          · have h := mem_runEdgeHook_trace hq
            subst h; rfl
          · simp only [runGlobalHooks, List.mem_map, List.mem_range] at hq
            obtain ⟨i, -, rfl⟩ := hq
            rfl

theorem invalidEvents_onError_free (m : StateMachine) (cs ns : String)
    (ctx : Option Ctx) (e : JsError) :
    ∀ q ∈ m.invalidEvents cs ns ctx e, q.isOnError = false := by
  unfold StateMachine.invalidEvents
  split <;> simp [Ev.isOnError]

theorem abortEvents_onError_free (cs ns : String) (nt : Option TransitionConfig)
    (ctx : Option Ctx) (e : JsError) :
    ∀ q ∈ StateMachine.abortEvents cs ns nt ctx e, q.isOnError = false := by
  cases nt with
  | none =>
      intro q hq
      simp [StateMachine.abortEvents] at hq
      subst hq; rfl
  | some t =>
      by_cases hc : (t.isAbortable && isAbortErr e) = true
      · cases hob : t.onAbort with
        | none =>
            intro q hq
            simp [StateMachine.abortEvents, hc, hob] at hq
        | some h =>
            intro q hq
            simp only [StateMachine.abortEvents, hc, if_true, hob] at hq
            rcases List.mem_cons.mp hq with rfl | hq
            · rfl
            · obtain ⟨s, -, rfl⟩ := List.mem_map.mp hq
              rfl
      · intro q hq
        simp only [StateMachine.abortEvents, if_neg hc] at hq
        simp at hq
        subst hq; rfl

theorem invalidEvents_onAbort_free (m : StateMachine) (cs ns : String)
    (ctx : Option Ctx) (e : JsError) (p : ErrorPayload) :
    Ev.onAbort p ∉ m.invalidEvents cs ns ctx e := by
  unfold StateMachine.invalidEvents
  split <;> simp

theorem errorEvents_onAbort_free (m : StateMachine) (cs ns : String)
    (ctx : Option Ctx) (e : JsError) (p : ErrorPayload) :
    Ev.onAbort p ∉ m.errorEvents cs ns ctx e := by
  unfold StateMachine.errorEvents
  split <;> simp

theorem abortEvents_onAbort_iff (cs ns : String) (nt : Option TransitionConfig)
    (ctx : Option Ctx) (e : JsError) :
    (∃ p, Ev.onAbort p ∈ StateMachine.abortEvents cs ns nt ctx e) ↔
      ∃ t h, nt = some t ∧ t.isAbortable = true ∧ isAbortErr e = true
        ∧ t.onAbort = some h := by
  constructor
  · rintro ⟨p, hp⟩
    cases nt with
    | none =>
        simp [StateMachine.abortEvents] at hp
    | some t =>
        by_cases hc : (t.isAbortable && isAbortErr e) = true
        · cases hob : t.onAbort with
          | none => simp [StateMachine.abortEvents, hc, hob] at hp
          | some h =>
              rw [Bool.and_eq_true] at hc
              exact ⟨t, h, rfl, hc.1, hc.2, hob⟩
        · simp only [StateMachine.abortEvents, if_neg hc] at hp
          simp at hp
  · rintro ⟨t, h, rfl, h1, h2, hob⟩
    exact ⟨mkErrorPayload cs ns ctx "Aborting transition." e, by
      simp [StateMachine.abortEvents, h1, h2, hob]⟩

theorem catchBlock_onAbort_iff (m : StateMachine) (cs ns : String)
    (nt : Option TransitionConfig) (ctx : Option Ctx) (e : JsError) :
    (∃ p, Ev.onAbort p ∈ m.catchBlock cs ns nt ctx e) ↔
      ∃ t h, nt = some t ∧ t.isAbortable = true ∧ isAbortErr e = true
        ∧ t.onAbort = some h := by
  rw [← abortEvents_onAbort_iff cs ns nt ctx e]
  unfold StateMachine.catchBlock
  constructor
  · rintro ⟨p, hp⟩
    rw [List.mem_append, List.mem_append] at hp
    rcases hp with (hp | hp) | hp
    · exact absurd hp (invalidEvents_onAbort_free m cs ns ctx e p)
    · exact ⟨p, hp⟩
    · exact absurd hp (errorEvents_onAbort_free m cs ns ctx e p)
  · rintro ⟨p, hp⟩
    exact ⟨p, by rw [List.mem_append, List.mem_append]; exact Or.inl (Or.inr hp)⟩

theorem catchBlock_onError_split (m : StateMachine) (cs ns : String)
    (nt : Option TransitionConfig) (ctx : Option Ctx) (e : JsError)
    (herr : m.onErrorConfigured = true) :
    ∃ pre, m.catchBlock cs ns nt ctx e
        = pre ++ [Ev.onError e (mkErrorPayload cs ns ctx "Aborting transition." e)]
      ∧ ∀ q ∈ pre, q.isOnError = false := by
  refine ⟨m.invalidEvents cs ns ctx e ++ StateMachine.abortEvents cs ns nt ctx e,
    ?_, ?_⟩
  · unfold StateMachine.catchBlock StateMachine.errorEvents
    rw [herr]
    simp
  · intro q hq
    rcases List.mem_append.mp hq with hq | hq
    · exact invalidEvents_onError_free m cs ns ctx e q hq
    · exact abortEvents_onError_free cs ns nt ctx e q hq

/-! The claim theorems. -/

/-- C8: at construction, every declared edge with `isAbortable = true` and no
`onAbort` receives the default handler, which logs one line naming the edge's
source and target states and does nothing else; edges that already supply
`onAbort` (or are not abortable) are left unchanged.  The substitution is
performed by `mkStateMachine` alone: `transition` only reads the stored,
already-normalized table, so it happens once at construction, never per call. -/
theorem constructor_installs_default_onAbort
    (config : MachineConfig) (S T : String) (row : TransitionRow)
    (edge : TransitionConfig)
    (hrow : List.lookup S config.transitions = some row)
    (hedge : List.lookup T row = some edge) :
    ∃ row', List.lookup S (mkStateMachine config).1.transitions = some row'
      ∧ List.lookup T row' = some (normalizeEdge S T edge)
      ∧ (edge.isAbortable = true → edge.onAbort = none →
          normalizeEdge S T edge = { edge with onAbort := some (defaultOnAbort S T) })
      ∧ (edge.onAbort.isSome = true ∨ edge.isAbortable = false →
          normalizeEdge S T edge = edge)
      ∧ (∀ p, defaultOnAbort S T p = [s!"Aborting transition from {S} to {T}"]) := by
  refine ⟨row.map fun q => (q.1, normalizeEdge S q.1 q.2), ?_, ?_, ?_, ?_,
    fun p => rfl⟩
  · show List.lookup S (normalizeTransitions config.transitions) = _
    unfold normalizeTransitions
    rw [lookup_map_keyed
      (fun k r => r.map fun q => (q.1, normalizeEdge k q.1 q.2))
      config.transitions S, hrow]
    rfl
  · rw [lookup_map_keyed (fun k t => normalizeEdge S k t) row T, hedge]
    rfl
  · intro h1 h2
    simp [normalizeEdge, h1, h2]
  · intro h
    rcases h with h | h
    · obtain ⟨x, hx⟩ := Option.isSome_iff_exists.mp h
      simp [normalizeEdge, hx]
    · simp [normalizeEdge, h]

/-- C8 witness at `c8Config`, whose single `idle → running` edge is abortable and
has no `onAbort`. -/
theorem constructor_installs_default_onAbort_witness :
    ∃ row', List.lookup "idle" (mkStateMachine c8Config).1.transitions = some row'
      ∧ List.lookup "running" row' = some (normalizeEdge "idle" "running"
          { isAbortable := true, onBefore := none, onAbort := none, onAfter := none })
      ∧ ((true : Bool) = true → (none : Option AbortHandler) = none →
          normalizeEdge "idle" "running"
              { isAbortable := true, onBefore := none, onAbort := none,
                onAfter := none }
            = { isAbortable := true, onBefore := none,
                onAbort := some (defaultOnAbort "idle" "running"), onAfter := none })
      ∧ ((none : Option AbortHandler).isSome = true ∨ (true : Bool) = false →
          normalizeEdge "idle" "running"
              { isAbortable := true, onBefore := none, onAbort := none,
                onAfter := none }
            = { isAbortable := true, onBefore := none, onAbort := none,
                onAfter := none })
      ∧ (∀ p, defaultOnAbort "idle" "running" p
          = ["Aborting transition from idle to running"]) :=
  constructor_installs_default_onAbort c8Config "idle" "running"
    [("running",
      { isAbortable := true, onBefore := none, onAbort := none, onAfter := none })]
    { isAbortable := true, onBefore := none, onAbort := none, onAfter := none }
    rfl rfl

/-- C10: the constructor writes the default `onAbort` handlers through the
caller's own `transitions` record, and its stored configuration shallow-copies the
config, sharing that record: after construction the caller's configuration holds
the normalized table (equal to the machine's), and it is observably changed by
construction whenever an abortable edge lacked `onAbort`, as in `c10Config`. -/
theorem constructor_mutates_caller_config :
    (∀ config : MachineConfig,
        (mkStateMachine config).2
            = { config with transitions := normalizeTransitions config.transitions }
          ∧ (mkStateMachine config).1.transitions
            = (mkStateMachine config).2.transitions)
      ∧ (mkStateMachine c10Config).2 ≠ c10Config := by
  constructor
  · exact fun config => ⟨rfl, rfl⟩
  · intro hEq
    have h2 := congrArg MachineConfig.transitions hEq
    simp [mkStateMachine, c10Config, normalizeTransitions, normalizeEdge,
      defaultOnAbort] at h2

/-- C9: for every caught failure the abort branch does not handle — no edge, an
edge not marked abortable, or an error that is not the `AbortTransition` signal,
which covers the `InvalidTransition` signal and any error raised after the commit
— the catch block emits the constant console notice of index.ts lines 123-126,
even when no abort was ever requested. -/
theorem skip_log_on_non_abort_branch
    (m : StateMachine) (cs ns : String) (nt : Option TransitionConfig)
    (ctx : Option Ctx) (e : JsError)
    (h : (nt.map TransitionConfig.isAbortable).getD false = false
      ∨ isAbortErr e = false) :
    Ev.log skipAbortLogMsg ∈ m.catchBlock cs ns nt ctx e := by
  unfold StateMachine.catchBlock
  rw [List.mem_append, List.mem_append]
  refine Or.inl (Or.inr ?_)
  cases nt with
  | none => simp [StateMachine.abortEvents]
  | some t =>
      have hc : (t.isAbortable && isAbortErr e) = false := by
        rcases h with h | h
        · simp at h
          simp [h]
        · simp [h]
      simp [StateMachine.abortEvents, hc]

/-- C9 witness: a generic (non-abort) error with no edge. -/
theorem skip_log_on_non_abort_branch_witness :
    Ev.log skipAbortLogMsg ∈
      plainMachine.catchBlock "idle" "running" none none (JsError.generic "boom") :=
  skip_log_on_non_abort_branch plainMachine "idle" "running" none none
    (JsError.generic "boom") (Or.inl rfl)

/-- C5 counterexample: an entity whose state field holds a state with no row in
the table makes index.ts line 77 read a property of `undefined` before the `try`
block begins — the call rejects with a TypeError (and no hook ran), refuting
"never throws or rejects to its caller" for every entity. -/
theorem transition_rejects_on_unknown_state_cex :
    (plainMachine.transition [("status", "ghost")] "running" none).outcome
        = CallOutcome.rejected RuntimeError.typeError
      ∧ (plainMachine.transition [("status", "ghost")] "running" none).trace = [] :=
  ⟨rfl, rfl⟩

/-- C5 (amended): whenever the entity's current state is a declared key of the
transition table, the promise returned by `transition` resolves: every failure
raised in the validate/before/commit/after sequence is absorbed by the catch block
and surfaced only through the configured hooks. -/
theorem transition_resolves_of_known_state
    (m : StateMachine) (entity : Entity) (T S : String) (row : TransitionRow)
    (context : Option Ctx)
    (hcur : entity.getField m.stateKey = some S)
    (hrow : List.lookup S m.transitions = some row) :
    (m.transition entity T context).outcome = CallOutcome.resolved := by
  simp only [StateMachine.transition, hcur, hrow, StateMachine.transitionCore]
  split
  · rfl
  · split <;> rfl

/-- C5 witness: a declared current state resolves. -/
theorem transition_resolves_of_known_state_witness :
    (plainMachine.transition [("status", "idle")] "running" none).outcome
      = CallOutcome.resolved :=
  transition_resolves_of_known_state plainMachine [("status", "idle")] "running"
    "idle" [("running", emptyEdge)] none rfl rfl

/-- C4: requesting a target with no declared edge out of the current state fails
with the `InvalidTransition` signal before any hook runs: the entity is returned
untouched, the trace holds no `onBefore` / global-before / commit / `onAfter` /
global-after event, `onInvalidTransition` fires with a payload carrying
`from = currentState` and `to = T`, then the skipped-abort notice, then `onError`
when configured. -/
theorem transition_invalid_target_spec
    (m : StateMachine) (entity : Entity) (S T : String) (row : TransitionRow)
    (context : Option Ctx)
    (hcur : entity.getField m.stateKey = some S)
    (hrow : List.lookup S m.transitions = some row)
    (hmiss : List.lookup T row = none)
    (hinv : m.onInvalidConfigured = true) :
    m.transition entity T context =
      { entity := entity,
        trace := Ev.onInvalid
            { fromState := S, toState := T, message := "Invalid Transaction",
              meta := context }
          :: Ev.log skipAbortLogMsg
          :: (if m.onErrorConfigured then
                [Ev.onError (mkInvalidTransition (some "Invalid Transaction") S T context)
                  { fromState := S, toState := T, message := "Invalid Transaction",
                    meta := context }]
              else []),
        caught := some (mkInvalidTransition (some "Invalid Transaction") S T context),
        outcome := CallOutcome.resolved } := by
  simp only [StateMachine.transition, hcur, hrow, StateMachine.transitionCore,
    StateMachine.preTransition, hmiss, Option.isSome_none]
  simp [StateMachine.catchBlock, StateMachine.invalidEvents, StateMachine.abortEvents,
    StateMachine.errorEvents, hinv, mkInvalidTransition, isInvalidErr, mkErrorPayload,
    JsError.message]

/-- C4 witness: `c4Machine` has only an `idle → running` edge, so `bogus` is
invalid from `idle`. -/
theorem transition_invalid_target_spec_witness :
    c4Machine.transition [("status", "idle")] "bogus" none =
      { entity := [("status", "idle")],
        trace := Ev.onInvalid
            { fromState := "idle", toState := "bogus",
              message := "Invalid Transaction", meta := none }
          :: Ev.log skipAbortLogMsg
          :: (if c4Machine.onErrorConfigured then
                [Ev.onError
                  (mkInvalidTransition (some "Invalid Transaction") "idle" "bogus" none)
                  { fromState := "idle", toState := "bogus",
                    message := "Invalid Transaction", meta := none }]
              else []),
        caught := some (mkInvalidTransition (some "Invalid Transaction") "idle" "bogus"
          none),
        outcome := CallOutcome.resolved } :=
  transition_invalid_target_spec c4Machine [("status", "idle")] "idle" "bogus"
    [("running", emptyEdge)] none rfl rfl rfl rfl

/-- C6: on an edge not marked `isAbortable` whose `onBefore` raises the
`AbortTransition` signal, the edge's `onAbort` never fires (no `onAbort` event
appears), the engine logs the skipped-abort notice, no rollback is attempted —
the caller's entity is exactly as `onBefore` left it — and `onError` fires with
the same error. -/
theorem transition_nonabortable_abort_spec
    (m : StateMachine) (entity e1 : Entity) (S T msg : String) (row : TransitionRow)
    (edge : TransitionConfig) (f : EventHandler) (context : Option Ctx)
    (hcur : entity.getField m.stateKey = some S)
    (hrow : List.lookup S m.transitions = some row)
    (hedge : List.lookup T row = some edge)
    (hno : edge.isAbortable = false)
    (hbef : edge.onBefore = some f)
    (hf : f entity = (e1, some (JsError.abortTransition msg)))
    (herr : m.onErrorConfigured = true) :
    m.transition entity T context =
      { entity := e1,
        trace := [Ev.evOnBefore, Ev.log skipAbortLogMsg,
          Ev.onError (JsError.abortTransition msg)
            (mkErrorPayload S T context "Aborting transition."
              (JsError.abortTransition msg))],
        caught := some (JsError.abortTransition msg),
        outcome := CallOutcome.resolved } := by
  simp only [StateMachine.transition, hcur, hrow, StateMachine.transitionCore,
    StateMachine.preTransition, hedge, Option.isSome_some, runEdgeHook, hbef, hf]
  simp [StateMachine.catchBlock, StateMachine.invalidEvents, StateMachine.abortEvents,
    StateMachine.errorEvents, hno, herr, isInvalidErr, isAbortErr]

/-- C6 witness at `c6Machine`, whose non-abortable `idle → running` edge raises the
abort signal from `onBefore` and supplies a user `onAbort` that never runs. -/
theorem transition_nonabortable_abort_spec_witness :
    c6Machine.transition [("status", "idle")] "running" none =
      { entity := [("status", "idle")],
        trace := [Ev.evOnBefore, Ev.log skipAbortLogMsg,
          Ev.onError (JsError.abortTransition "veto")
            (mkErrorPayload "idle" "running" none "Aborting transition."
              (JsError.abortTransition "veto"))],
        caught := some (JsError.abortTransition "veto"),
        outcome := CallOutcome.resolved } :=
  transition_nonabortable_abort_spec c6Machine [("status", "idle")]
    [("status", "idle")] "idle" "running" "veto" [("running", c6Edge)] c6Edge
    (fun e => (e, some (mkAbortTransition (some "veto")))) none
    rfl rfl rfl rfl rfl rfl rfl

/-- C1: on a declared edge `S → T` when no hook raises an error, `transition`
writes `T` into the entity's state field exactly once — the single `commit` event
— strictly after the edge's `onBefore` and all global `beforeTransition` hooks and
strictly before the edge's `onAfter` and all global `afterTransition` hooks, which
run in exactly that relative order; the call resolves with nothing caught. -/
theorem transition_success_commits_and_orders_hooks
    (m : StateMachine) (entity e1 e3 : Entity) (tb ta : List Ev) (S T : String)
    (row : TransitionRow) (edge : TransitionConfig) (context : Option Ctx)
    (hcur : entity.getField m.stateKey = some S)
    (hrow : List.lookup S m.transitions = some row)
    (hedge : List.lookup T row = some edge)
    (hb : runEdgeHook edge.onBefore Ev.evOnBefore entity = (e1, tb, none))
    (hB : ∀ fn ∈ m.beforeHooks, fn (mkTransitionPayload S T context) = none)
    (ha : runEdgeHook edge.onAfter Ev.evOnAfter (e1.setField m.stateKey T)
      = (e3, ta, none))
    (hA : ∀ fn ∈ m.afterHooks, fn (mkTransitionPayload S T context) = none) :
    m.transition entity T context =
      { entity := e3,
        trace := tb
          ++ (List.range m.beforeHooks.length).map
              (fun i => Ev.globalBefore i (mkTransitionPayload S T context))
          ++ [Ev.commit T] ++ ta
          ++ (List.range m.afterHooks.length).map
              (fun i => Ev.globalAfter i (mkTransitionPayload S T context)),
        caught := none, outcome := CallOutcome.resolved }
      ∧ (Entity.setField e1 m.stateKey T).getField m.stateKey = some T := by
  have hBnil :
      List.filterMap (fun fn => fn (mkTransitionPayload S T context)) m.beforeHooks
        = [] :=
    List.filterMap_eq_nil_iff.mpr hB
  have hAnil :
      List.filterMap (fun fn => fn (mkTransitionPayload S T context)) m.afterHooks
        = [] :=
    List.filterMap_eq_nil_iff.mpr hA
  refine ⟨?_, getField_setField_self e1 m.stateKey T⟩
  simp only [StateMachine.transition, hcur, hrow, StateMachine.transitionCore,
    StateMachine.preTransition, hedge, Option.isSome_some, eq_self_iff_true, if_true,
    hb, runGlobalHooks, hBnil, List.head?_nil]
  simp only [StateMachine.postTransition, getField_setField_self, ha, runGlobalHooks,
    hAnil, List.head?_nil]
  simp [List.append_assoc]

/-- C1 witness at `c1Machine`: `onBefore` adds field `b`, one global before-hook,
`onAfter` adds field `a`, one global after-hook. -/
theorem transition_success_commits_and_orders_hooks_witness :
    c1Machine.transition [("status", "idle")] "running" none =
      { entity := [("status", "running"), ("b", "1"), ("a", "2")],
        trace := [Ev.evOnBefore,
          Ev.globalBefore 0 (mkTransitionPayload "idle" "running" none),
          Ev.commit "running", Ev.evOnAfter,
          Ev.globalAfter 0 (mkTransitionPayload "idle" "running" none)],
        caught := none, outcome := CallOutcome.resolved }
      ∧ (Entity.setField [("status", "idle"), ("b", "1")] "status" "running").getField
          "status" = some "running" :=
  transition_success_commits_and_orders_hooks c1Machine [("status", "idle")]
    [("status", "idle"), ("b", "1")] [("status", "running"), ("b", "1"), ("a", "2")]
    [Ev.evOnBefore] [Ev.evOnAfter] "idle" "running" [("running", c1Edge)] c1Edge none
    rfl rfl rfl rfl
    (fun fn hfn => by
      have h : c1Machine.beforeHooks = [fun _ => none] := rfl
      rw [h] at hfn
      rw [List.mem_singleton.mp hfn])
    rfl
    (fun fn hfn => by
      have h : c1Machine.afterHooks = [fun _ => none] := rfl
      rw [h] at hfn
      rw [List.mem_singleton.mp hfn])

/-- C3 counterexample: `c3Edge.onBefore` first sets `flag` to `"mutated"` and then
raises the abort signal on an abortable edge.  After the call the caller's entity
still holds `flag = "mutated"` — it does not equal the pre-call snapshot
`c3Entity` — even though `onAbort` fired: the line-113 restore rebinds only the
callee-local parameter, so "every other field is restored" is false. -/
theorem abort_rollback_not_restored_cex :
    (c3Machine.transition c3Entity "running" none).entity
        = [("status", "idle"), ("flag", "mutated")]
      ∧ (c3Machine.transition c3Entity "running" none).entity ≠ c3Entity
      ∧ Ev.onAbort
            { fromState := "idle", toState := "running", message := "stop",
              meta := none }
          ∈ (c3Machine.transition c3Entity "running" none).trace :=
  ⟨rfl, by decide, by decide⟩

/-- C3 (amended): on an abortable edge whose `onBefore` raises the
`AbortTransition` signal, `onAbort` fires with the abort payload, `onAfter` and
the global after-hooks never fire, `onError` fires with the same error, and the
state field is unchanged provided `onBefore` itself left it unchanged — but the
caller's entity is exactly as `onBefore` left it: mutations the hook made to other
fields persist, because the snapshot restore never reaches the caller. -/
theorem transition_abortable_abort_keeps_hook_mutations
    (m : StateMachine) (entity e1 : Entity) (S T msg : String) (row : TransitionRow)
    (edge : TransitionConfig) (f : EventHandler) (h : AbortHandler)
    (context : Option Ctx)
    (hcur : entity.getField m.stateKey = some S)
    (hrow : List.lookup S m.transitions = some row)
    (hedge : List.lookup T row = some edge)
    (hab : edge.isAbortable = true)
    (hbef : edge.onBefore = some f)
    (hf : f entity = (e1, some (JsError.abortTransition msg)))
    (hh : edge.onAbort = some h) :
    m.transition entity T context =
      { entity := e1,
        trace := Ev.evOnBefore
          :: Ev.onAbort (mkErrorPayload S T context "Aborting transition."
              (JsError.abortTransition msg))
          :: ((h (mkErrorPayload S T context "Aborting transition."
              (JsError.abortTransition msg))).map Ev.log
            ++ (if m.onErrorConfigured then
                  [Ev.onError (JsError.abortTransition msg)
                    (mkErrorPayload S T context "Aborting transition."
                      (JsError.abortTransition msg))]
                else [])),
        caught := some (JsError.abortTransition msg),
        outcome := CallOutcome.resolved }
      ∧ (e1.getField m.stateKey = entity.getField m.stateKey →
          (m.transition entity T context).entity.getField m.stateKey = some S) := by
  have hmain : m.transition entity T context =
      { entity := e1,
        trace := Ev.evOnBefore
          :: Ev.onAbort (mkErrorPayload S T context "Aborting transition."
              (JsError.abortTransition msg))
          :: ((h (mkErrorPayload S T context "Aborting transition."
              (JsError.abortTransition msg))).map Ev.log
            ++ (if m.onErrorConfigured then
                  [Ev.onError (JsError.abortTransition msg)
                    (mkErrorPayload S T context "Aborting transition."
                      (JsError.abortTransition msg))]
                else [])),
        caught := some (JsError.abortTransition msg),
        outcome := CallOutcome.resolved } := by
    simp only [StateMachine.transition, hcur, hrow, StateMachine.transitionCore,
      StateMachine.preTransition, hedge, Option.isSome_some, runEdgeHook, hbef, hf]
    simp [StateMachine.catchBlock, StateMachine.invalidEvents,
      StateMachine.abortEvents, StateMachine.errorEvents, hab, hh, isInvalidErr,
      isAbortErr]
  refine ⟨hmain, ?_⟩
  intro hpres
  rw [hmain]
  show e1.getField m.stateKey = some S
  rw [hpres]
  exact hcur

/-- C3 witness at `c3Machine` (whose abortable edge received the default
`onAbort`). -/
theorem transition_abortable_abort_keeps_hook_mutations_witness :
    c3Machine.transition c3Entity "running" none =
      { entity := [("status", "idle"), ("flag", "mutated")],
        trace := Ev.evOnBefore
          :: Ev.onAbort (mkErrorPayload "idle" "running" none "Aborting transition."
              (JsError.abortTransition "stop"))
          :: ((defaultOnAbort "idle" "running"
              (mkErrorPayload "idle" "running" none "Aborting transition."
                (JsError.abortTransition "stop"))).map Ev.log
            ++ (if c3Machine.onErrorConfigured then
                  [Ev.onError (JsError.abortTransition "stop")
                    (mkErrorPayload "idle" "running" none "Aborting transition."
                      (JsError.abortTransition "stop"))]
                else [])),
        caught := some (JsError.abortTransition "stop"),
        outcome := CallOutcome.resolved } :=
  (transition_abortable_abort_keeps_hook_mutations c3Machine c3Entity
    [("status", "idle"), ("flag", "mutated")] "idle" "running" "stop"
    [("running", normalizeEdge "idle" "running" c3Edge)]
    (normalizeEdge "idle" "running" c3Edge)
    (fun e => (e.setField "flag" "mutated", some (mkAbortTransition (some "stop"))))
    (defaultOnAbort "idle" "running") none
    rfl rfl rfl rfl rfl rfl rfl).1

/-- C2 counterexample: on `c2Machine` the abortable edge's `onAfter` raises the
`AbortTransition` signal after the commit, and `onAbort` fires anyway — the trace
shows the `commit` strictly before the `onAbort` invocation, and the committed
state persists on the caller's entity — refuting "onAbort never fires for a
failure raised after the commit". -/
theorem onAbort_fires_post_commit_cex :
    (c2Machine.transition [("status", "idle")] "running" none).trace =
        [Ev.commit "running", Ev.evOnAfter,
         Ev.onAbort
           { fromState := "idle", toState := "running", message := "late abort",
             meta := none },
         Ev.log "Aborting transition from idle to running"]
      ∧ (c2Machine.transition [("status", "idle")] "running" none).entity
        = [("status", "running")] :=
  ⟨rfl, rfl⟩

/-- C2 (amended): `onAbort` fires exactly when the call catches an error that is an
`AbortTransition` instance and the edge for the requested target is marked
`isAbortable` and supplies an `onAbort` handler (after construction every abortable
edge does) — regardless of the phase that raised the error.  The catch block only
tests `e instanceof AbortTransition`, so an `AbortTransition` raised after the
commit, by `onAfter` or a global after-hook, fires `onAbort` too. -/
theorem onAbort_iff_abortable_abort_error
    (m : StateMachine) (entity : Entity) (S T : String) (row : TransitionRow)
    (context : Option Ctx)
    (hcur : entity.getField m.stateKey = some S)
    (hrow : List.lookup S m.transitions = some row) :
    (∃ p, Ev.onAbort p ∈ (m.transition entity T context).trace) ↔
      (∃ e nt h, (m.transition entity T context).caught = some e
        ∧ isAbortErr e = true ∧ List.lookup T row = some nt
        ∧ nt.isAbortable = true ∧ nt.onAbort = some h) := by
  simp only [StateMachine.transition, hcur, hrow, StateMachine.transitionCore]
  cases hc : (m.preTransition S row T (List.lookup T row) entity context).2.2 with
  | some err =>
      simp only [hc]
      constructor
      · rintro ⟨p, hp⟩
        rcases List.mem_append.mp hp with hp | hp
        · exact absurd rfl
            (isPhase_not_onAbort
              (preTransition_trace_phase m S row T (List.lookup T row) entity context
                (Ev.onAbort p) hp) p)
        · obtain ⟨t, h', hnt, h1, h2, hob⟩ :=
            (catchBlock_onAbort_iff m S T (List.lookup T row) context err).mp ⟨p, hp⟩
          exact ⟨err, t, h', rfl, h2, hnt, h1, hob⟩
      · rintro ⟨e, t, h', hce, h2, hnt, h1, hob⟩
        have he : err = e := Option.some.inj hce
        subst he
        obtain ⟨p, hp⟩ :=
          (catchBlock_onAbort_iff m S T (List.lookup T row) context err).mpr
            ⟨t, h', hnt, h1, h2, hob⟩
        exact ⟨p, List.mem_append.mpr (Or.inr hp)⟩
  | none =>
      simp only [hc]
      cases hc2 : (m.postTransition S T (List.lookup T row)
          ((m.preTransition S row T (List.lookup T row) entity
            context).1.setField m.stateKey T) m.stateKey context).2.2 with
      | some err =>
          simp only [hc2]
          constructor
          · rintro ⟨p, hp⟩
            simp only [List.append_assoc, List.mem_append] at hp
            rcases hp with hp | hp | hp | hp
            · exact absurd rfl
                (isPhase_not_onAbort
                  (preTransition_trace_phase m S row T (List.lookup T row) entity
                    context (Ev.onAbort p) hp) p)
            · simp at hp
            · exact absurd rfl
                (isPhase_not_onAbort
                  (postTransition_trace_phase m S T (List.lookup T row)
                    ((m.preTransition S row T (List.lookup T row) entity
                      context).1.setField m.stateKey T) m.stateKey context
                    (Ev.onAbort p) hp) p)
            · obtain ⟨t, h', hnt, h1, h2, hob⟩ :=
                (catchBlock_onAbort_iff m S T (List.lookup T row) context err).mp
                  ⟨p, hp⟩
              exact ⟨err, t, h', rfl, h2, hnt, h1, hob⟩
          · rintro ⟨e, t, h', hce, h2, hnt, h1, hob⟩
            have he : err = e := Option.some.inj hce
            subst he
            obtain ⟨p, hp⟩ :=
              (catchBlock_onAbort_iff m S T (List.lookup T row) context err).mpr
                ⟨t, h', hnt, h1, h2, hob⟩
            refine ⟨p, ?_⟩
            simp only [List.append_assoc, List.mem_append]
            exact Or.inr (Or.inr (Or.inr hp))
      | none =>
          simp only [hc2]
          constructor
          · rintro ⟨p, hp⟩
            simp only [List.append_assoc, List.mem_append] at hp
            rcases hp with hp | hp | hp
            · exact absurd rfl
                (isPhase_not_onAbort
                  (preTransition_trace_phase m S row T (List.lookup T row) entity
                    context (Ev.onAbort p) hp) p)
            · simp at hp
            · exact absurd rfl
                (isPhase_not_onAbort
                  (postTransition_trace_phase m S T (List.lookup T row)
                    ((m.preTransition S row T (List.lookup T row) entity
                      context).1.setField m.stateKey T) m.stateKey context
                    (Ev.onAbort p) hp) p)
          · rintro ⟨e, t, h', hce, -⟩
            exact absurd hce (by simp)

/-- C2 witness: `c2Machine` with its post-commit abort, through the amended iff. -/
theorem onAbort_iff_abortable_abort_error_witness :
    ∃ p, Ev.onAbort p ∈
      (c2Machine.transition [("status", "idle")] "running" none).trace :=
  (onAbort_iff_abortable_abort_error c2Machine [("status", "idle")] "idle" "running"
      [("running", normalizeEdge "idle" "running" c2Edge)] none rfl rfl).mpr
    ⟨JsError.abortTransition "late abort", normalizeEdge "idle" "running" c2Edge,
      defaultOnAbort "idle" "running", rfl, rfl, rfl, rfl, rfl⟩

/-- C7: whenever a `transition` call catches a failure — invalid transition, abort,
or any other error — and `globalHooks.onError` is configured, the trace ends with
exactly one `onError` invocation, carrying the error and the payload
`{from, to, message, meta: context}`, and every earlier event is not an `onError`
invocation: in particular it runs after the failure-specific handler
(`onInvalidTransition` or `onAbort`). -/
theorem onError_fires_once_last
    (m : StateMachine) (entity : Entity) (T S : String) (context : Option Ctx)
    (e : JsError)
    (hcur : entity.getField m.stateKey = some S)
    (hcaught : (m.transition entity T context).caught = some e)
    (herr : m.onErrorConfigured = true) :
    ∃ pre, (m.transition entity T context).trace
        = pre ++ [Ev.onError e (mkErrorPayload S T context "Aborting transition." e)]
      ∧ ∀ q ∈ pre, q.isOnError = false := by
  simp only [StateMachine.transition, hcur] at hcaught ⊢
  cases hrow : List.lookup S m.transitions with
  | none =>
      simp only [hrow] at hcaught
      simp at hcaught
  | some row =>
      simp only [hrow, StateMachine.transitionCore] at hcaught ⊢
      cases hc : (m.preTransition S row T (List.lookup T row) entity context).2.2 with
      | some err =>
          simp only [hc] at hcaught ⊢
          have he : err = e := Option.some.inj hcaught
          subst he
          obtain ⟨cbPre, hcb, hcbF⟩ :=
            catchBlock_onError_split m S T (List.lookup T row) context err herr
          refine ⟨(m.preTransition S row T (List.lookup T row) entity context).2.1
            ++ cbPre, ?_, ?_⟩
          · rw [hcb, List.append_assoc]
          · intro q hq
            rcases List.mem_append.mp hq with hq | hq
            · exact isPhase_not_onError
                (preTransition_trace_phase m S row T (List.lookup T row) entity
                  context q hq)
            · exact hcbF q hq
      | none =>
          simp only [hc] at hcaught ⊢
          cases hc2 : (m.postTransition S T (List.lookup T row)
              ((m.preTransition S row T (List.lookup T row) entity
                context).1.setField m.stateKey T) m.stateKey context).2.2 with
          | some err =>
              simp only [hc2] at hcaught ⊢
              have he : err = e := Option.some.inj hcaught
              subst he
              obtain ⟨cbPre, hcb, hcbF⟩ :=
                catchBlock_onError_split m S T (List.lookup T row) context err herr
              refine ⟨(m.preTransition S row T (List.lookup T row) entity
                  context).2.1
                ++ [Ev.commit T]
                ++ (m.postTransition S T (List.lookup T row)
                  ((m.preTransition S row T (List.lookup T row) entity
                    context).1.setField m.stateKey T) m.stateKey context).2.1
                ++ cbPre, ?_, ?_⟩
              · rw [hcb]
                simp [List.append_assoc]
              · intro q hq
                simp only [List.append_assoc, List.mem_append] at hq
                rcases hq with hq | hq | hq | hq
                · exact isPhase_not_onError
                    (preTransition_trace_phase m S row T (List.lookup T row) entity
                      context q hq)
                · simp only [List.mem_singleton] at hq
                  subst hq; rfl
                · exact isPhase_not_onError
                    (postTransition_trace_phase m S T (List.lookup T row)
                      ((m.preTransition S row T (List.lookup T row) entity
                        context).1.setField m.stateKey T) m.stateKey context q hq)
                · exact hcbF q hq
          | none =>
              simp only [hc2] at hcaught
              simp at hcaught

/-- C7 witness: an invalid-transition failure on `c4Machine`. -/
theorem onError_fires_once_last_witness :
    ∃ pre, (c4Machine.transition [("status", "idle")] "bogus" none).trace
        = pre ++ [Ev.onError
            (mkInvalidTransition (some "Invalid Transaction") "idle" "bogus" none)
            (mkErrorPayload "idle" "bogus" none "Aborting transition."
              (mkInvalidTransition (some "Invalid Transaction") "idle" "bogus" none))]
      ∧ ∀ q ∈ pre, q.isOnError = false :=
  onError_fires_once_last c4Machine [("status", "idle")] "bogus" "idle" none
    (mkInvalidTransition (some "Invalid Transaction") "idle" "bogus" none)
    rfl rfl rfl

end StateGate
